import Mathlib

/-!
Shallow embedding of the Taipei_Parking_Map acquisition-and-normalization
pipeline (src/services/api.ts, src/unnamed/part_000: the shared type
declarations and the coordinate service).

JavaScript runtime values flowing through the pipeline are modelled as a
JSON value type (`Json`), with `Option Json` standing for a possibly
`undefined` value.  JS numbers are modelled as rationals, with `JSNum`
adding the NaN point where it matters (the output of parseFloat).
Network effects are modelled by an explicit environment mapping each
request (direct URL, or a proxy index with per-attempt counter) to an
outcome, and each fetching function additionally returns the list of
requests it issued.
-/

inductive Json where
  | null : Json
  | bool (b : Bool) : Json
  | num (q : ℚ) : Json
  | str (s : String) : Json
  | arr (elems : List Json) : Json
  | obj (fields : List (String × Json)) : Json

mutual

/-- Structural equality test on JSON values, modelling the SameValueZero
comparison a JS Map applies to its keys (upstream identifiers are strings,
where the two notions agree). -/
def Json.beq : Json → Json → Bool
  | Json.null, Json.null => true
  | Json.bool a, Json.bool b => a == b
  | Json.num a, Json.num b => a == b
  | Json.str a, Json.str b => a == b
  | Json.arr a, Json.arr b => Json.beqList a b
  | Json.obj a, Json.obj b => Json.beqFields a b
  | _, _ => false

def Json.beqList : List Json → List Json → Bool
  | [], [] => true
  | a :: as, b :: bs => Json.beq a b && Json.beqList as bs
  | _, _ => false

def Json.beqFields : List (String × Json) → List (String × Json) → Bool
  | [], [] => true
  | (ka, va) :: as, (kb, vb) :: bs => ka == kb && Json.beq va vb && Json.beqFields as bs
  | _, _ => false

end

/-- JS truthiness of a defined JSON value: null, false, 0 and "" are falsy,
arrays and objects are always truthy. -/
def Json.truthy : Json → Bool
  | Json.null => false
  | Json.bool b => b
  | Json.num q => decide (q ≠ 0)
  | Json.str s => decide (s ≠ "")
  | Json.arr _ => true
  | Json.obj _ => true

/-- JS truthiness of a possibly-undefined value (undefined is falsy). -/
def truthyOpt : Option Json → Bool
  | none => false
  | some j => j.truthy

/-- The JS `a || b` operator on possibly-undefined values: returns `a` when
it is truthy, otherwise `b`. -/
def jsOr (a b : Option Json) : Option Json :=
  if truthyOpt a then a else b

/-- Property access `obj[k]` on an object's field list (first binding wins;
the upstream payloads carry distinct keys). -/
def fieldsGet : List (String × Json) → String → Option Json
  | [], _ => none
  | (k2, v) :: rest, k => if k2 = k then some v else fieldsGet rest k

/-- Property access `obj[k]` on a possibly-undefined JS value: only objects
have fields. -/
def objGet (obj : Option Json) (k : String) : Option Json :=
  match obj with
  | some (Json.obj fields) => fieldsGet fields k
  | _ => none

/-- Modelled from the spec: the JS `String.prototype.toLowerCase` builtin
as used on ASCII field names — lower-case every character. -/
def jsToLower (s : String) : String := String.mk (s.data.map Char.toLower)

/-- Modelled from the spec: the JS `String.prototype.toUpperCase` builtin
as used on ASCII field names — upper-case every character. -/
def jsToUpper (s : String) : String := String.mk (s.data.map Char.toUpper)

/-- src/services/api.ts getProp: tolerant field lookup
`obj[key] || obj[key.toLowerCase()] || obj[key.toUpperCase()]`,
with `undefined` returned for a falsy `obj`. -/
def getProp (obj : Option Json) (key : String) : Option Json :=
  if truthyOpt obj then
    jsOr (objGet obj key) (jsOr (objGet obj (jsToLower key)) (objGet obj (jsToUpper key)))
  else none

/-- A JS number as produced by parseFloat: NaN or an actual (rational)
value.  NaN, 0 and -0 are the falsy numbers; ℚ identifies 0 and -0. -/
inductive JSNum where
  | nan : JSNum
  | val (q : ℚ) : JSNum

/-- JS falsiness of a number: NaN and zero are falsy. -/
def JSNum.falsy : JSNum → Bool
  | JSNum.nan => true
  | JSNum.val q => decide (q = 0)

/-- The numeric value, defaulting NaN to 0 (only used on non-falsy input). -/
def JSNum.toRatD : JSNum → ℚ
  | JSNum.nan => 0
  | JSNum.val q => q

/-- Value of a (base-10) digit list, most significant first. -/
def digitsToNat (ds : List Char) : Nat :=
  ds.foldl (fun n c => 10 * n + (c.toNat - Char.toNat '0')) 0

/-- Modelled from the spec: the JS builtin `parseInt(s, 10)` (not part of
the repository).  Skips leading whitespace, reads an optional sign and the
longest digit prefix, ignores any trailing characters; `none` models NaN
when no digits are found. -/
def parseIntStr (s : String) : Option Int :=
  let cs := s.data.dropWhile Char.isWhitespace
  match cs with
  | '-' :: rest =>
    let ds := rest.takeWhile Char.isDigit
    if ds.isEmpty then none else some (-(digitsToNat ds : Int))
  | '+' :: rest =>
    let ds := rest.takeWhile Char.isDigit
    if ds.isEmpty then none else some ((digitsToNat ds : Int))
  | _ =>
    let ds := cs.takeWhile Char.isDigit
    if ds.isEmpty then none else some ((digitsToNat ds : Int))

/-- Modelled from the spec: the JS builtin `parseFloat` (not part of the
repository).  Skips leading whitespace, reads an optional sign, an integer
digit prefix and an optional fractional part, ignoring trailing characters;
NaN when no digits are found.  Exponent suffixes and "Infinity" are not
modelled: the upstream coordinate fields are plain decimal strings. -/
def parseFloatStr (s : String) : JSNum :=
  let cs := s.data.dropWhile Char.isWhitespace
  let signAndRest : ℚ × List Char :=
    match cs with
    | '-' :: rest => (-1, rest)
    | '+' :: rest => (1, rest)
    | _ => (1, cs)
  let intDs := signAndRest.2.takeWhile Char.isDigit
  let afterInt := signAndRest.2.dropWhile Char.isDigit
  let fracDs :=
    match afterInt with
    | '.' :: r2 => r2.takeWhile Char.isDigit
    | _ => []
  if intDs.isEmpty && fracDs.isEmpty then JSNum.nan
  else
    JSNum.val (signAndRest.1 *
      ((digitsToNat intDs : ℚ) + (digitsToNat fracDs : ℚ) / (10 : ℚ) ^ fracDs.length))

/-- `parseFloat` applied to an arbitrary JS value: strings are parsed,
numbers pass through (string round-trip), anything else (undefined, null,
booleans, arrays, objects) is modelled as NaN. -/
def parseFloatJS : Option Json → JSNum
  | some (Json.str s) => parseFloatStr s
  | some (Json.num q) => JSNum.val q
  | _ => JSNum.nan

/-- `parseInt(v, 10)` applied to an arbitrary JS value: strings are parsed,
numbers truncate toward zero (string round-trip), anything else is
modelled as NaN (`none`). -/
def parseIntJS : Option Json → Option Int
  | some (Json.str s) => parseIntStr s
  | some (Json.num q) => some (Int.tdiv q.num (q.den : Int))
  | _ => none

/-- src/unnamed/part_000 convertTWD97ToWGS84: `if (!x || !y) return [0, 0]`
sentinel fast-path, otherwise delegate to the proj4 library (modelled as
the abstract pure function `proj`, returning `[lon, lat]` which the code
swaps into `[lat, lon]`; the library call's try/catch is not reachable in
this pure model). -/
def convertTWD97ToWGS84 (proj : ℚ → ℚ → ℚ × ℚ) (x y : JSNum) : ℚ × ℚ :=
  if x.falsy || y.falsy then (0, 0)
  else
    let result := proj x.toRatD y.toRatD
    (result.2, result.1)

/-- src/unnamed/part_000 ParkingLotDesc (Taipei City description record),
restricted to the fields the normalizer reads.  Per the declared TS
interface, coordinates are strings and totalcar is a number. -/
structure ParkingLotDesc where
  id : String
  name : String
  address : String
  payex : String
  tw97x : String
  tw97y : String
  totalcar : ℚ

/-- src/unnamed/part_000 ParkingLotAvail (Taipei City availability record). -/
structure ParkingLotAvail where
  id : String
  availablecar : ℚ

/-- The source tag of a canonical record. -/
inductive Source where
  | TPC : Source
  | NTPC : Source

/-- src/unnamed/part_000 ParkingLotData: the canonical per-lot record
built by the normalizers.  Variant B fills the display fields with raw
(possibly undefined) JS values, so they are modelled as `Option Json`;
Variant A wraps its typed strings into `Json.str`. -/
structure ParkingLotData where
  id : Option Json
  name : Option Json
  address : Option Json
  payex : Option Json
  totalcar : ℚ
  availablecar : ℚ
  lat : ℚ
  lng : ℚ
  lastUpdated : Nat
  source : Source

/-- src/services/api.ts TPC_DESC_URL. -/
def TPC_DESC_URL : String :=
  "https://tcgbusfs.blob.core.windows.net/blobtcmsv/TCMSV_alldesc.json"

/-- src/services/api.ts TPC_AVAIL_URL. -/
def TPC_AVAIL_URL : String :=
  "https://tcgbusfs.blob.core.windows.net/blobtcmsv/TCMSV_allavailable.json"

/-- src/services/api.ts NTPC_DESC_BASE_URL. -/
def NTPC_DESC_BASE_URL : String :=
  "https://data.ntpc.gov.tw/api/datasets/b1464ef0-9c7c-4a6f-abf7-6bdf32847e68/json"

/-- src/services/api.ts NTPC_AVAIL_BASE_URL. -/
def NTPC_AVAIL_BASE_URL : String :=
  "https://data.ntpc.gov.tw/api/datasets/e09b35a5-a738-48cc-b0f5-570b67ad9c78/json"

/-- One HTTP request issued by the pipeline: a direct fetch of a URL, or an
attempt numbered `attempt` through the proxy with index `idx` in the
PROXIES list (0 = corsproxy.io, 1 = allorigins). -/
inductive Request where
  | direct (url : String) : Request
  | proxied (idx : Nat) (url : String) (attempt : Nat) : Request
deriving DecidableEq

/-- Outcome of one fetch attempt: a network/timeout failure (the fetch
call throws), a non-2xx response, a 2xx response whose body is not valid
JSON, or a 2xx response with the given JSON body. -/
inductive FetchOutcome where
  | netErr : FetchOutcome
  | httpErr : FetchOutcome
  | okNonJson : FetchOutcome
  | okJson (v : Json) : FetchOutcome

/-- The network environment: what the upstream answers to each request. -/
def Env : Type := Request → FetchOutcome

/-- The JSON body of an outcome, if any. -/
def jsonOf : FetchOutcome → Option Json
  | FetchOutcome.okJson v => some v
  | _ => none

/-- Outcomes that make the per-proxy `for (let i = 0; i <= retries; i++)`
loop in fetchWithRetry move on to its next iteration: a thrown fetch
(network/timeout) is caught and retried, and a non-2xx response falls
through the `if (res.ok)` test into the next iteration. -/
def isRetryErr : FetchOutcome → Bool
  | FetchOutcome.netErr => true
  | FetchOutcome.httpErr => true
  | _ => false

/-- src/services/api.ts fetchWithRetry, inner per-proxy loop
`for (let i = 0; i <= retries; i++)` for the proxy with index `idx`,
starting at attempt `i` with `fuel` iterations left (called with
`fuel = retries + 1`).  A parsed JSON body returns it; a 2xx non-JSON body
`break`s to the next proxy; a thrown fetch or a non-2xx response consumes
the iteration and continues.  Also returns the list of attempts made. -/
def proxyLoop (env : Env) (url : String) (idx : Nat) : Nat → Nat → Option Json × List Request
  | _, 0 => (none, [])
  | i, fuel + 1 =>
    let r := Request.proxied idx url i
    match env r with
    | FetchOutcome.okJson v => (some v, [r])
    | FetchOutcome.okNonJson => (none, [r])
    | FetchOutcome.httpErr =>
      let rest := proxyLoop env url idx (i + 1) fuel
      (rest.1, r :: rest.2)
    | FetchOutcome.netErr =>
      let rest := proxyLoop env url idx (i + 1) fuel
      (rest.1, r :: rest.2)

/-- src/services/api.ts fetchWithRetry (default retries = 2): one direct
attempt (returning only on a 2xx response with a JSON body), then the two
PROXIES in order, each driven by `proxyLoop`.  `none` models the final
`throw new Error(...)` after all strategies are exhausted.  Also returns
the list of requests issued. -/
def fetchWithRetryM (env : Env) (url : String) (retries : Nat) : Option Json × List Request :=
  match jsonOf (env (Request.direct url)) with
  | some v => (some v, [Request.direct url])
  | none =>
    let p0 := proxyLoop env url 0 0 (retries + 1)
    match p0.1 with
    | some v => (some v, Request.direct url :: p0.2)
    | none =>
      let p1 := proxyLoop env url 1 0 (retries + 1)
      (p1.1, Request.direct url :: (p0.2 ++ p1.2))

/-- src/services/api.ts fetchAllNTPCData page URL:
`baseUrl?page=N&size=1000&_t=ts`. -/
def pageUrl (baseUrl : String) (ts : Nat) (page : Nat) : String :=
  baseUrl ++ "?page=" ++ toString page ++ "&size=1000&_t=" ++ toString ts

/-- The pagination continue test
`!data || !Array.isArray(data) || data.length === 0`: pagination continues
exactly on a non-empty array (all falsy JS values are non-arrays). -/
def pageElems : Json → Option (List Json)
  | Json.arr [] => none
  | Json.arr (x :: xs) => some (x :: xs)
  | _ => none

/-- One logical page fetch of the paginator: `none` when the fetch throws
(`catch ... break`) or when the value is not a non-empty array. -/
def ntpcStep (env : Env) (baseUrl : String) (ts page : Nat) : Option (List Json) :=
  match (fetchWithRetryM env (pageUrl baseUrl ts page) 2).1 with
  | none => none
  | some d => pageElems d

/-- src/services/api.ts fetchAllNTPCData `while (true)` loop body starting
at page `page` with accumulator `acc`: stop on a failed/empty page keeping
`acc`, otherwise append the page and stop once `page + 1 > 15` (the
`if (page > 15) break` safety limit after the increment).  The second
component counts the page requests issued. -/
def ntpcLoop (env : Env) (baseUrl : String) (ts : Nat) (page : Nat) (acc : List Json) :
    List Json × Nat :=
  match ntpcStep env baseUrl ts page with
  | none => (acc, 1)
  | some elems =>
    if h : page + 1 > 15 then (acc ++ elems, 1)
    else
      let rest := ntpcLoop env baseUrl ts (page + 1) (acc ++ elems)
      (rest.1, rest.2 + 1)
termination_by 16 - page
decreasing_by omega

/-- src/services/api.ts fetchAllNTPCData: drain pages starting at 0. -/
def fetchAllNTPCData (env : Env) (baseUrl : String) (ts : Nat) : List Json × Nat :=
  ntpcLoop env baseUrl ts 0 []

/-- Assoc-list model of a JS Map built by repeated `set` (entries are
consed, so the most recent `set` of a key is found first), queried with
the given key comparison. -/
def mapFind {κ : Type} (beqFn : κ → κ → Bool) : List (κ × ℚ) → κ → Option ℚ
  | [], _ => none
  | (k2, v) :: rest, k => if beqFn k k2 then some v else mapFind beqFn rest k

/-- src/services/api.ts fetchTaipeiData: the
`parksAvail.forEach(p => availMap.set(p.id, p.availablecar))` map build. -/
def buildAvailMapTpc (parksAvail : List ParkingLotAvail) : List (String × ℚ) :=
  parksAvail.foldl (fun m p => (p.id, p.availablecar) :: m) []

/-- src/services/api.ts fetchTaipeiData: the record built for one
description entry (the `...desc` spread adds only fields the canonical
model does not track). -/
def mkTpcRecord (proj : ℚ → ℚ → ℚ × ℚ) (availMap : List (String × ℚ)) (now : Nat)
    (desc : ParkingLotDesc) : ParkingLotData :=
  let x := parseFloatStr desc.tw97x
  let y := parseFloatStr desc.tw97y
  let c := convertTWD97ToWGS84 proj x y
  { id := some (Json.str desc.id)
    name := some (Json.str desc.name)
    address := some (Json.str desc.address)
    payex := some (Json.str desc.payex)
    totalcar := desc.totalcar
    availablecar := (mapFind (fun a b : String => a == b) availMap desc.id).getD (-9)
    lat := c.1
    lng := c.2
    lastUpdated := now
    source := Source.TPC }

/-- The Variant A final filter `p.lat !== 0 && p.lng !== 0`. -/
def keepTpc (p : ParkingLotData) : Bool :=
  decide (p.lat ≠ 0) && decide (p.lng ≠ 0)

/-- src/services/api.ts fetchTaipeiData, normalization part: map each
description through `mkTpcRecord` and drop zero-coordinate records. -/
def normalizeTpc (proj : ℚ → ℚ → ℚ × ℚ) (parksDesc : List ParkingLotDesc)
    (parksAvail : List ParkingLotAvail) (now : Nat) : List ParkingLotData :=
  ((parksDesc.map (mkTpcRecord proj (buildAvailMapTpc parksAvail) now)).filter keepTpc)

/-- src/services/api.ts fetchNewTaipeiData: the entry one availability
record contributes to the availability map —
`if (id) availMap.set(id, isNaN(count) ? -9 : count)` with
`count = parseInt(getProp(p, 'AVAILABLECAR'), 10)`. -/
def ntpcAvailEntry (p : Json) : Option (Json × ℚ) :=
  match getProp (some p) "ID" with
  | some j =>
    if j.truthy then
      some (j, (((parseIntJS (getProp (some p) "AVAILABLECAR")).getD (-9) : Int) : ℚ))
    else none
  | none => none

/-- src/services/api.ts fetchNewTaipeiData: the availability map build. -/
def buildAvailMapNtpc (availArray : List Json) : List (Json × ℚ) :=
  availArray.foldl (fun m p =>
    match ntpcAvailEntry p with
    | some e => e :: m
    | none => m) []

/-- `availMap.get(id)` where `id` is the raw (possibly undefined) value of
the tolerant ID lookup: a JS Map lookup with an undefined key finds
nothing (only truthy ids were inserted). -/
def availLookup (m : List (Json × ℚ)) : Option Json → Option ℚ
  | none => none
  | some j => mapFind Json.beq m j

/-- src/services/api.ts fetchNewTaipeiData: the record built for one raw
description object. -/
def mkNtpcRecord (proj : ℚ → ℚ → ℚ × ℚ) (availMap : List (Json × ℚ)) (now : Nat)
    (desc : Json) : ParkingLotData :=
  let x := parseFloatJS (getProp (some desc) "TW97X")
  let y := parseFloatJS (getProp (some desc) "TW97Y")
  let c := convertTWD97ToWGS84 proj x y
  { id := getProp (some desc) "ID"
    name := getProp (some desc) "NAME"
    address := getProp (some desc) "ADDRESS"
    payex := getProp (some desc) "PAYEX"
    totalcar := (((parseIntJS (getProp (some desc) "TOTALCAR")).getD 0 : Int) : ℚ)
    availablecar := (availLookup availMap (getProp (some desc) "ID")).getD (-9)
    lat := c.1
    lng := c.2
    lastUpdated := now
    source := Source.NTPC }

/-- The Variant B final filter `p.lat !== 0 && p.lng !== 0 && p.id`. -/
def keepNtpc (p : ParkingLotData) : Bool :=
  decide (p.lat ≠ 0) && decide (p.lng ≠ 0) && truthyOpt p.id

/-- src/services/api.ts fetchNewTaipeiData, normalization part (the
`totalcar: parseInt(totalStr, 10) || 0` coercion agrees with
`(parseIntJS _).getD 0` on integers, since `0 || 0` is `0`). -/
def normalizeNtpc (proj : ℚ → ℚ → ℚ × ℚ) (descArray availArray : List Json)
    (now : Nat) : List ParkingLotData :=
  ((descArray.map (mkNtpcRecord proj (buildAvailMapNtpc availArray) now)).filter keepNtpc)

/-- `descJson.data.park` extraction for a Source A payload; `none` models
the code throwing (and landing in the catch) on a payload without that
shape. -/
def decodePark (j : Json) : Option (List Json) :=
  match j with
  | Json.obj fs =>
    match fieldsGet fs "data" with
    | some (Json.obj ds) =>
      match fieldsGet ds "park" with
      | some (Json.arr l) => some l
      | _ => none
    | _ => none
  | _ => none

/-- Modelled from the spec: one entry of the Source A description payload
under the §6 upstream contract (the code casts `descJson.data.park` to
`ParkingLotDesc[]` without runtime checks, so the contract fixes the field
types: strings for id/name/address/payex/tw97x/tw97y, a number for
totalcar). -/
def decodeDesc (j : Json) : Option ParkingLotDesc :=
  match j with
  | Json.obj fs =>
    match fieldsGet fs "id", fieldsGet fs "name", fieldsGet fs "address",
          fieldsGet fs "payex", fieldsGet fs "tw97x", fieldsGet fs "tw97y",
          fieldsGet fs "totalcar" with
    | some (Json.str i), some (Json.str n), some (Json.str a), some (Json.str pe),
      some (Json.str x), some (Json.str y), some (Json.num t) =>
      some { id := i, name := n, address := a, payex := pe, tw97x := x, tw97y := y,
             totalcar := t }
    | _, _, _, _, _, _, _ => none
  | _ => none

/-- Modelled from the spec: one entry of the Source A availability payload
under the §6 upstream contract (string id, numeric availablecar). -/
def decodeAvail (j : Json) : Option ParkingLotAvail :=
  match j with
  | Json.obj fs =>
    match fieldsGet fs "id", fieldsGet fs "availablecar" with
    | some (Json.str i), some (Json.num a) => some { id := i, availablecar := a }
    | _, _ => none
  | _ => none

/-- src/services/api.ts fetchTaipeiData, result part: both direct fetch
outcomes in hand, return the normalized records when both are 2xx JSON
payloads of the contracted shape; any throw, non-2xx response, non-JSON
body or wrongly-shaped payload lands in the catch, which returns `[]`. -/
def fetchTaipeiDataCore (proj : ℚ → ℚ → ℚ × ℚ) (dOut aOut : FetchOutcome) (now : Nat) :
    List ParkingLotData :=
  match dOut, aOut with
  | FetchOutcome.okJson dj, FetchOutcome.okJson aj =>
    match decodePark dj, decodePark aj with
    | some dl, some al =>
      match dl.mapM decodeDesc, al.mapM decodeAvail with
      | some parksDesc, some parksAvail => normalizeTpc proj parksDesc parksAvail now
      | _, _ => []
    | _, _ => []
  | _, _ => []

/-- src/services/api.ts fetchTaipeiData: `Promise.all` unconditionally
issues exactly two plain `fetch(TPC_DESC_URL)` / `fetch(TPC_AVAIL_URL)`
calls (not routed through fetchWithRetry), whose outcomes feed
`fetchTaipeiDataCore`.  Returns the records with the requests issued. -/
def fetchTaipeiDataM (proj : ℚ → ℚ → ℚ × ℚ) (env : Env) (now : Nat) :
    List ParkingLotData × List Request :=
  (fetchTaipeiDataCore proj (env (Request.direct TPC_DESC_URL))
      (env (Request.direct TPC_AVAIL_URL)) now,
   [Request.direct TPC_DESC_URL, Request.direct TPC_AVAIL_URL])

/-- src/services/api.ts fetchNewTaipeiData: drain both paginated feeds
through fetchAllNTPCData and normalize. -/
def fetchNewTaipeiDataM (proj : ℚ → ℚ → ℚ × ℚ) (env : Env) (ts now : Nat) :
    List ParkingLotData :=
  normalizeNtpc proj (fetchAllNTPCData env NTPC_DESC_BASE_URL ts).1
    (fetchAllNTPCData env NTPC_AVAIL_BASE_URL ts).1 now

/-- src/services/api.ts fetchParkingData error message. -/
def noDataMsg : String := "無法取得任何停車場資料，請檢查網路連線或 API 狀態。"

/-- src/services/api.ts fetchParkingData: concatenate the two sources'
outputs (each already `[]` on its own failure) and throw exactly when the
combination is empty. -/
def fetchParkingData (tpcData ntpcData : List ParkingLotData) :
    Except String (List ParkingLotData) :=
  let combined := tpcData ++ ntpcData
  if combined.length = 0 then Except.error noDataMsg else Except.ok combined

/-- Is this request an attempt through the proxy with index `idx`? -/
def isProxyAttempt (idx : Nat) : Request → Bool
  | Request.proxied i _ _ => decide (i = idx)
  | Request.direct _ => false

/-- Is this request proxied at all (as opposed to a direct fetch)? -/
def isProxyReq : Request → Bool
  | Request.proxied _ _ _ => true
  | Request.direct _ => false

/-- A concrete stand-in for the proj4 projection (the identity on the
coordinate pair), used to instantiate theorems on concrete inputs. -/
def projSwap : ℚ → ℚ → ℚ × ℚ := fun x y => (x, y)

/-- An upstream that always fails at the network level. -/
def envAllNetErr : Env := fun _ => FetchOutcome.netErr

/-- An upstream that always answers with a non-2xx status. -/
def envAllHttp : Env := fun _ => FetchOutcome.httpErr

/-- An upstream whose direct fetch throws and whose first proxy answers
non-2xx on attempt 0 and a 2xx non-JSON body on attempt 1. -/
def envRelayW : Env := fun r =>
  match r with
  | Request.proxied 0 _ 0 => FetchOutcome.httpErr
  | Request.proxied 0 _ 1 => FetchOutcome.okNonJson
  | _ => FetchOutcome.netErr

/-- An upstream for the paginator: page 0 of base "b" holds one record,
page 1 is the empty array, everything else fails. -/
def pageEnvW : Env := fun r =>
  match r with
  | Request.direct u =>
    if u = pageUrl "b" 0 0 then FetchOutcome.okJson (Json.arr [Json.str "r1"])
    else if u = pageUrl "b" 0 1 then FetchOutcome.okJson (Json.arr [])
    else FetchOutcome.netErr
  | _ => FetchOutcome.netErr

/-- Source A sample description (the spec §8 end-to-end scenario). -/
def tpcDescP1 : ParkingLotDesc :=
  { id := "P1", name := "P1 lot", address := "addr", payex := "pay",
    tw97x := "300000", tw97y := "2770000", totalcar := 100 }

/-- Source A sample availability for `tpcDescP1`. -/
def tpcAvailP1 : ParkingLotAvail := { id := "P1", availablecar := 42 }

/-- The canonical record `normalizeTpc` produces from `tpcDescP1` and
`tpcAvailP1` under `projSwap`. -/
def recTpcP1 : ParkingLotData :=
  { id := some (Json.str "P1"), name := some (Json.str "P1 lot"),
    address := some (Json.str "addr"), payex := some (Json.str "pay"),
    totalcar := 100, availablecar := 42, lat := 2770000, lng := 300000,
    lastUpdated := 0, source := Source.TPC }

/-- Source B sample description object. -/
def ntpcDescA : Json :=
  Json.obj [("ID", Json.str "A1"), ("TW97X", Json.str "300000"),
            ("TW97Y", Json.str "2770000")]

/-- Source B sample availability object carrying the parsable negative
(non-sentinel) count "-5". -/
def ntpcAvailNeg : Json :=
  Json.obj [("ID", Json.str "A1"), ("AVAILABLECAR", Json.str "-5")]

/-- The canonical record `normalizeNtpc` produces from `ntpcDescA` and
`ntpcAvailNeg` under `projSwap`. -/
def recNtpcA : ParkingLotData :=
  { id := some (Json.str "A1"), name := none, address := none, payex := none,
    totalcar := 0, availablecar := -5, lat := 2770000, lng := 300000,
    lastUpdated := 0, source := Source.NTPC }

/-- Source B sample description object carrying the parsable negative
capacity "-5". -/
def ntpcDescNegTotal : Json :=
  Json.obj [("ID", Json.str "B1"), ("TW97X", Json.str "300000"),
            ("TW97Y", Json.str "2770000"), ("TOTALCAR", Json.str "-5")]

/-- The canonical record `normalizeNtpc` produces from `ntpcDescNegTotal`
(with no availability data) under `projSwap`. -/
def recNtpcB : ParkingLotData :=
  { id := some (Json.str "B1"), name := none, address := none, payex := none,
    totalcar := -5, availablecar := -9, lat := 2770000, lng := 300000,
    lastUpdated := 0, source := Source.NTPC }

/-- A successful Map lookup returns a value stored in the map. -/
theorem mapFind_mem {κ : Type} (beqFn : κ → κ → Bool) (m : List (κ × ℚ)) (k : κ) (v : ℚ)
    (h : mapFind beqFn m k = some v) : ∃ k2, (k2, v) ∈ m := by
  induction m with
  | nil => simp [mapFind] at h
  | cons e rest ih =>
    obtain ⟨k2, v2⟩ := e
    rw [mapFind] at h
    by_cases hb : beqFn k k2 = true
    · rw [if_pos hb] at h
      obtain rfl : v2 = v := Option.some.inj h
      exact ⟨k2, List.mem_cons_self _ _⟩
    · rw [if_neg hb] at h
      obtain ⟨k3, hk3⟩ := ih h
      exact ⟨k3, List.mem_cons_of_mem _ hk3⟩

/-- Every entry of the Variant B availability map is the entry contributed
by some availability record. -/
theorem mem_buildAvailMapNtpc_aux (l : List Json) :
    ∀ (acc : List (Json × ℚ)) (e : Json × ℚ),
      e ∈ l.foldl (fun m p =>
        match ntpcAvailEntry p with
        | some e2 => e2 :: m
        | none => m) acc →
      e ∈ acc ∨ ∃ p ∈ l, ntpcAvailEntry p = some e := by
  induction l with
  | nil => intro acc e h; exact Or.inl h
  | cons p rest ih =>
    intro acc e h
    rw [List.foldl_cons] at h
    rcases ih _ e h with hacc | ⟨p2, hp2, he⟩
    · cases hcase : ntpcAvailEntry p with
      | none => rw [hcase] at hacc; exact Or.inl hacc
      | some e2 =>
        rw [hcase] at hacc
        rcases List.mem_cons.mp hacc with rfl | hmem
        · exact Or.inr ⟨p, List.mem_cons_self _ _, hcase⟩
        · exact Or.inl hmem
    · exact Or.inr ⟨p2, List.mem_cons_of_mem _ hp2, he⟩

/-- Specialization of `mem_buildAvailMapNtpc_aux` to the empty seed. -/
theorem mem_buildAvailMapNtpc (availArr : List Json) (e : Json × ℚ)
    (h : e ∈ buildAvailMapNtpc availArr) : ∃ p ∈ availArr, ntpcAvailEntry p = some e := by
  rcases mem_buildAvailMapNtpc_aux availArr [] e h with h0 | h1
  · simp at h0
  · exact h1

/-- Every entry of the Variant A availability map is `(p.id, p.availablecar)`
for some availability record `p`. -/
theorem mem_buildAvailMapTpc_aux (l : List ParkingLotAvail) :
    ∀ (acc : List (String × ℚ)) (e : String × ℚ),
      e ∈ l.foldl (fun m p => (p.id, p.availablecar) :: m) acc →
      e ∈ acc ∨ ∃ p ∈ l, e = (p.id, p.availablecar) := by
  induction l with
  | nil => intro acc e h; exact Or.inl h
  | cons p rest ih =>
    intro acc e h
    rw [List.foldl_cons] at h
    rcases ih _ e h with hacc | ⟨p2, hp2, he⟩
    · rcases List.mem_cons.mp hacc with rfl | hmem
      · exact Or.inr ⟨p, List.mem_cons_self _ _, rfl⟩
      · exact Or.inl hmem
    · exact Or.inr ⟨p2, List.mem_cons_of_mem _ hp2, he⟩

/-- Specialization of `mem_buildAvailMapTpc_aux` to the empty seed. -/
theorem mem_buildAvailMapTpc (l : List ParkingLotAvail) (e : String × ℚ)
    (h : e ∈ buildAvailMapTpc l) : ∃ p ∈ l, e = (p.id, p.availablecar) := by
  rcases mem_buildAvailMapTpc_aux l [] e h with h0 | h1
  · simp at h0
  · exact h1

/-- C4: the top-level aggregate returns the concatenation of Source A's
records followed by Source B's records whenever at least one source
contributes a record (so a single failed/empty source is tolerated), and
fails with the NoDataAvailable error exactly when both sources contribute
zero records. -/
theorem aggregate_concat_or_nodata (tpc ntpc : List ParkingLotData) :
    (fetchParkingData tpc ntpc = Except.error noDataMsg ↔ tpc = [] ∧ ntpc = [])
    ∧ (fetchParkingData tpc ntpc = Except.ok (tpc ++ ntpc) ↔ ¬(tpc = [] ∧ ntpc = [])) := by
  unfold fetchParkingData
  rcases tpc with _ | ⟨a, tl⟩ <;> rcases ntpc with _ | ⟨b, tl2⟩ <;> simp

/-- C8: no record with both coordinates at the (0,0) sentinel is emitted by
either normalizer — in fact each emitted record has both coordinates
non-zero — and Variant B never emits a record whose identifier is empty
(or missing). -/
theorem no_zero_coord_records (proj : ℚ → ℚ → ℚ × ℚ) (parksDesc : List ParkingLotDesc)
    (parksAvail : List ParkingLotAvail) (descArr availArr : List Json) (now : Nat) :
    (∀ r ∈ normalizeTpc proj parksDesc parksAvail now, r.lat ≠ 0 ∨ r.lng ≠ 0)
    ∧ (∀ r ∈ normalizeNtpc proj descArr availArr now,
        (r.lat ≠ 0 ∨ r.lng ≠ 0) ∧ r.id ≠ some (Json.str "") ∧ r.id ≠ none) := by
  constructor
  · intro r hr
    rw [normalizeTpc, List.mem_filter] at hr
    have hk := hr.2
    rw [keepTpc] at hk
    simp only [Bool.and_eq_true, decide_eq_true_eq] at hk
    exact Or.inl hk.1
  · intro r hr
    rw [normalizeNtpc, List.mem_filter] at hr
    have hk := hr.2
    rw [keepNtpc] at hk
    simp only [Bool.and_eq_true, decide_eq_true_eq] at hk
    refine ⟨Or.inl hk.1.1, ?_, ?_⟩
    · intro hid
      have := hk.2
      rw [hid] at this
      simp [truthyOpt, Json.truthy] at this
    · intro hid
      have := hk.2
      rw [hid] at this
      simp [truthyOpt] at this

/-- C8 witness: the spec §8 end-to-end Source A record is emitted with
non-zero coordinates. -/
theorem no_zero_coord_records_witness : recTpcP1.lat ≠ 0 ∨ recTpcP1.lng ≠ 0 :=
  (no_zero_coord_records projSwap [tpcDescP1] [tpcAvailP1] [] [] 0).1 recTpcP1 (by
    have h : normalizeTpc projSwap [tpcDescP1] [tpcAvailP1] 0 = [recTpcP1] := by
      simp [normalizeTpc, mkTpcRecord, buildAvailMapTpc, keepTpc, recTpcP1, tpcDescP1,
        tpcAvailP1, parseFloatStr, digitsToNat, convertTWD97ToWGS84, JSNum.falsy,
        JSNum.toRatD, projSwap, mapFind]
    rw [h]
    exact List.mem_singleton.mpr rfl)

/-- C9 (amended): Variant B's totalcar is the upstream capacity string run
through `parseInt(..., 10) || 0` — so 0 exactly when the string is
unparsable (or parses to 0) and otherwise the parsed integer unchanged,
including negative values — and Variant A's totalcar is the upstream
number unchanged; neither variant enforces non-negativity. -/
theorem totalcar_from_upstream (proj : ℚ → ℚ → ℚ × ℚ) (descArr availArr : List Json)
    (parksDesc : List ParkingLotDesc) (parksAvail : List ParkingLotAvail) (now : Nat) :
    (∀ r ∈ normalizeNtpc proj descArr availArr now,
        ∃ d ∈ descArr,
          r.totalcar = (((parseIntJS (getProp (some d) "TOTALCAR")).getD 0 : Int) : ℚ))
    ∧ (∀ r ∈ normalizeTpc proj parksDesc parksAvail now,
        ∃ d ∈ parksDesc, r.totalcar = d.totalcar) := by
  constructor <;> intro r hr
  · rw [normalizeNtpc, List.mem_filter] at hr
    obtain ⟨d, hd, hrd⟩ := List.mem_map.mp hr.1
    exact ⟨d, hd, by rw [← hrd]; rfl⟩
  · rw [normalizeTpc, List.mem_filter] at hr
    obtain ⟨d, hd, hrd⟩ := List.mem_map.mp hr.1
    exact ⟨d, hd, by rw [← hrd]; rfl⟩

/-- C9 counterexample: the parsable negative capacity "-5" is emitted
unchanged by Variant B, so an emitted totalcar need not be a non-negative
integer. -/
theorem totalcar_negative_counterexample :
    (normalizeNtpc projSwap [ntpcDescNegTotal] [] 0).map (fun r => r.totalcar) = [-5]
    ∧ ¬ (0 : ℚ) ≤ (-5 : ℚ) := by
  constructor
  · simp [normalizeNtpc, mkNtpcRecord, buildAvailMapNtpc, ntpcAvailEntry, keepNtpc,
      ntpcDescNegTotal, getProp, jsOr, objGet, fieldsGet, truthyOpt, Json.truthy,
      jsToLower, jsToUpper, parseFloatJS, parseFloatStr, parseIntJS, parseIntStr,
      digitsToNat, convertTWD97ToWGS84, JSNum.falsy, JSNum.toRatD, projSwap,
      availLookup, mapFind, Json.beq]
  · norm_num

/-- C9 witness: the amended theorem applied to the concrete record emitted
for `ntpcDescNegTotal`. -/
theorem totalcar_from_upstream_witness :
    ∃ d ∈ [ntpcDescNegTotal],
      recNtpcB.totalcar = (((parseIntJS (getProp (some d) "TOTALCAR")).getD 0 : Int) : ℚ) :=
  (totalcar_from_upstream projSwap [ntpcDescNegTotal] [] [] [] 0).1 recNtpcB (by
    have h : normalizeNtpc projSwap [ntpcDescNegTotal] [] 0 = [recNtpcB] := by
      simp [normalizeNtpc, mkNtpcRecord, buildAvailMapNtpc, ntpcAvailEntry, keepNtpc,
        ntpcDescNegTotal, recNtpcB, getProp, jsOr, objGet, fieldsGet, truthyOpt,
        Json.truthy, jsToLower, jsToUpper, parseFloatJS, parseFloatStr, parseIntJS,
        parseIntStr, digitsToNat, convertTWD97ToWGS84, JSNum.falsy, JSNum.toRatD,
        projSwap, availLookup, mapFind, Json.beq]
    rw [h]
    exact List.mem_singleton.mpr rfl)

/-- C1 (amended): an emitted record's availablecar is either the -9
sentinel (unmatched description, missing or unparsable availability
value) or exactly the upstream availability value — Variant B's parsed
integer, Variant A's raw number — with no restriction to non-negative
counts or to the documented sentinel set. -/
theorem availablecar_sentinel_or_upstream (proj : ℚ → ℚ → ℚ × ℚ)
    (descArr availArr : List Json) (parksDesc : List ParkingLotDesc)
    (parksAvail : List ParkingLotAvail) (now : Nat) :
    (∀ r ∈ normalizeNtpc proj descArr availArr now,
        r.availablecar = -9 ∨
          ∃ p ∈ availArr,
            (((parseIntJS (getProp (some p) "AVAILABLECAR")).getD (-9) : Int) : ℚ) =
              r.availablecar)
    ∧ (∀ r ∈ normalizeTpc proj parksDesc parksAvail now,
        r.availablecar = -9 ∨ ∃ p ∈ parksAvail, p.availablecar = r.availablecar) := by
  constructor <;> intro r hr
  · rw [normalizeNtpc, List.mem_filter] at hr
    obtain ⟨d, hd, hrd⟩ := List.mem_map.mp hr.1
    have hav : r.availablecar =
        (availLookup (buildAvailMapNtpc availArr) (getProp (some d) "ID")).getD (-9) := by
      rw [← hrd]
      rfl
    cases hid : getProp (some d) "ID" with
    | none =>
      left
      rw [hav, hid]
      rfl
    | some j =>
      rw [hid] at hav
      cases hl : mapFind Json.beq (buildAvailMapNtpc availArr) j with
      | none =>
        left
        rw [hav]
        show (mapFind Json.beq (buildAvailMapNtpc availArr) j).getD (-9) = -9
        rw [hl]
        rfl
      | some v =>
        right
        obtain ⟨k2, hk2⟩ := mapFind_mem Json.beq (buildAvailMapNtpc availArr) j v hl
        obtain ⟨p, hp, he⟩ := mem_buildAvailMapNtpc availArr (k2, v) hk2
        refine ⟨p, hp, ?_⟩
        have hv : v = (((parseIntJS (getProp (some p) "AVAILABLECAR")).getD (-9) : Int) : ℚ) := by
          rw [ntpcAvailEntry] at he
          cases hq : getProp (some p) "ID" with
          | none =>
            rw [hq] at he
            have he2 : (none : Option (Json × ℚ)) = some (k2, v) := he
            simp at he2
          | some j2 =>
            rw [hq] at he
            have he2 : (if j2.truthy = true then
                some (j2, (((parseIntJS (getProp (some p) "AVAILABLECAR")).getD (-9) : Int) : ℚ))
              else none) = some (k2, v) := he
            by_cases ht : j2.truthy = true
            · rw [if_pos ht] at he2
              have := Option.some.inj he2
              have hsnd := congrArg Prod.snd this
              exact hsnd.symm
            · rw [if_neg ht] at he2
              simp at he2
        rw [← hv, hav]
        show _ = (mapFind Json.beq (buildAvailMapNtpc availArr) j).getD (-9)
        rw [hl]
        rfl
  · rw [normalizeTpc, List.mem_filter] at hr
    obtain ⟨d, hd, hrd⟩ := List.mem_map.mp hr.1
    have hav : r.availablecar =
        (mapFind (fun a b : String => a == b) (buildAvailMapTpc parksAvail) d.id).getD (-9) := by
      rw [← hrd]
      rfl
    cases hl : mapFind (fun a b : String => a == b) (buildAvailMapTpc parksAvail) d.id with
    | none =>
      left
      rw [hav, hl]
      rfl
    | some v =>
      right
      obtain ⟨k2, hk2⟩ := mapFind_mem _ (buildAvailMapTpc parksAvail) d.id v hl
      obtain ⟨p, hp, he⟩ := mem_buildAvailMapTpc parksAvail (k2, v) hk2
      refine ⟨p, hp, ?_⟩
      have hv : v = p.availablecar := congrArg Prod.snd he
      rw [← hv, hav, hl]
      rfl

/-- C1 counterexample: the parsable negative non-sentinel availability
"-5" is emitted unchanged by Variant B, so a record whose availablecar is
a negative value outside the sentinel set can be constructed. -/
theorem availablecar_negative_counterexample :
    (normalizeNtpc projSwap [ntpcDescA] [ntpcAvailNeg] 0).map (fun r => r.availablecar) = [-5]
    ∧ ¬ ((0 : ℚ) ≤ -5 ∨ (-5 : ℚ) = -9 ∨ (-5 : ℚ) = -11 ∨ (-5 : ℚ) = -12 ∨ (-5 : ℚ) = -13) := by
  constructor
  · simp [normalizeNtpc, mkNtpcRecord, buildAvailMapNtpc, ntpcAvailEntry, keepNtpc,
      ntpcDescA, ntpcAvailNeg, getProp, jsOr, objGet, fieldsGet, truthyOpt, Json.truthy,
      jsToLower, jsToUpper, parseFloatJS, parseFloatStr, parseIntJS, parseIntStr,
      digitsToNat, convertTWD97ToWGS84, JSNum.falsy, JSNum.toRatD, projSwap,
      availLookup, mapFind, Json.beq]
  · push_neg
    norm_num

/-- C1 witness: the amended theorem applied to the concrete record emitted
for `ntpcDescA` with availability `ntpcAvailNeg`. -/
theorem availablecar_sentinel_or_upstream_witness :
    recNtpcA.availablecar = -9 ∨
      ∃ p ∈ [ntpcAvailNeg],
        (((parseIntJS (getProp (some p) "AVAILABLECAR")).getD (-9) : Int) : ℚ) =
          recNtpcA.availablecar :=
  (availablecar_sentinel_or_upstream projSwap [ntpcDescA] [ntpcAvailNeg] [] [] 0).1 recNtpcA (by
    have h : normalizeNtpc projSwap [ntpcDescA] [ntpcAvailNeg] 0 = [recNtpcA] := by
      simp [normalizeNtpc, mkNtpcRecord, buildAvailMapNtpc, ntpcAvailEntry, keepNtpc,
        ntpcDescA, ntpcAvailNeg, recNtpcA, getProp, jsOr, objGet, fieldsGet, truthyOpt,
        Json.truthy, jsToLower, jsToUpper, parseFloatJS, parseFloatStr, parseIntJS,
        parseIntStr, digitsToNat, convertTWD97ToWGS84, JSNum.falsy, JSNum.toRatD,
        projSwap, availLookup, mapFind, Json.beq]
    rw [h]
    exact List.mem_singleton.mpr rfl)

/-- C2 counterexample: getProp tries only the exact, all-lowercase and
all-uppercase spellings of the requested key, so the mixed-case object
does not resolve: looking up the field ID in the object with the single
field Id yields undefined, not "A1". -/
theorem getProp_mixed_case_counterexample :
    getProp (some (Json.obj [("Id", Json.str "A1")])) "ID" ≠ some (Json.str "A1") := by
  have h : getProp (some (Json.obj [("Id", Json.str "A1")])) "ID" = none := by
    simp [getProp, jsOr, objGet, fieldsGet, truthyOpt, Json.truthy, jsToLower, jsToUpper]
  rw [h]
  simp

/-- C2 (amended): for every field name and truthy value, getProp resolves
an object carrying that field under its exact requested casing, its
all-lowercase casing, or its all-uppercase casing to that value; in
particular the objects with single field ID or id holding "A1" resolve to
"A1" when ID is looked up, but the mixed casing Id resolves to undefined
(see the counterexample). -/
theorem getProp_case_tolerant (key : String) (v : Json) (c : String)
    (hv : v.truthy = true) (hc : c = key ∨ c = jsToLower key ∨ c = jsToUpper key) :
    getProp (some (Json.obj [(c, v)])) key = some v := by
  have ht : truthyOpt (some (Json.obj [(c, v)])) = true := rfl
  rw [getProp, if_pos ht]
  by_cases h1 : c = key
  · have e1 : objGet (some (Json.obj [(c, v)])) key = some v := by
      simp [objGet, fieldsGet, h1]
    rw [e1, jsOr]
    rw [if_pos (by simpa [truthyOpt] using hv)]
  · have e1 : objGet (some (Json.obj [(c, v)])) key = none := by
      simp [objGet, fieldsGet, h1]
    rw [e1, jsOr, if_neg (by simp [truthyOpt])]
    by_cases h2 : c = jsToLower key
    · have e2 : objGet (some (Json.obj [(c, v)])) (jsToLower key) = some v := by
        simp [objGet, fieldsGet, h2]
      rw [jsOr, e2, if_pos (by simpa [truthyOpt] using hv)]
    · have h3 : c = jsToUpper key := by
        rcases hc with h | h | h
        · exact absurd h h1
        · exact absurd h h2
        · exact h
      have e2 : objGet (some (Json.obj [(c, v)])) (jsToLower key) = none := by
        simp [objGet, fieldsGet, h2]
      have e3 : objGet (some (Json.obj [(c, v)])) (jsToUpper key) = some v := by
        simp [objGet, fieldsGet, h3]
      rw [jsOr, e2, if_neg (by simp [truthyOpt]), e3]

/-- C2 witness: the amended theorem applied at key ID to the all-lowercase
object carrying id = "A1". -/
theorem getProp_case_tolerant_witness :
    getProp (some (Json.obj [("id", Json.str "A1")])) "ID" = some (Json.str "A1") :=
  getProp_case_tolerant "ID" (Json.str "A1") "id" (by decide)
    (Or.inr (Or.inl (by decide)))

/-- C10: a NaN in either coordinate (as parseFloat produces on a
non-numeric string) takes the same falsy fast-path as a zero input and
yields exactly (0, 0) without invoking the projection (the result is
independent of the projection function), and consequently a Variant B
description whose TW97X does not parse produces no emitted record. -/
theorem nan_coords_dropped :
    (∀ (proj proj2 : ℚ → ℚ → ℚ × ℚ) (x y : JSNum), (x = JSNum.nan ∨ y = JSNum.nan) →
        convertTWD97ToWGS84 proj x y = (0, 0) ∧
        convertTWD97ToWGS84 proj x y = convertTWD97ToWGS84 proj2 x y)
    ∧ (∀ (proj : ℚ → ℚ → ℚ × ℚ) (y : JSNum),
        convertTWD97ToWGS84 proj JSNum.nan y = convertTWD97ToWGS84 proj (JSNum.val 0) y)
    ∧ (∀ (proj : ℚ → ℚ → ℚ × ℚ) (availArr : List Json) (now : Nat) (d : Json),
        parseFloatJS (getProp (some d) "TW97X") = JSNum.nan →
        normalizeNtpc proj [d] availArr now = []) := by
  refine ⟨?_, ?_, ?_⟩
  · intro proj proj2 x y hxy
    have hf : (x.falsy || y.falsy) = true := by
      rcases hxy with rfl | rfl
      · simp [JSNum.falsy]
      · simp [JSNum.falsy]
    constructor
    · rw [convertTWD97ToWGS84, if_pos hf]
    · rw [convertTWD97ToWGS84, if_pos hf, convertTWD97ToWGS84, if_pos hf]
  · intro proj y
    rfl
  · intro proj availArr now d hx
    have hlat : (mkNtpcRecord proj (buildAvailMapNtpc availArr) now d).lat = 0 := by
      show (convertTWD97ToWGS84 proj (parseFloatJS (getProp (some d) "TW97X"))
        (parseFloatJS (getProp (some d) "TW97Y"))).1 = 0
      rw [hx]
      rfl
    have hkeep : keepNtpc (mkNtpcRecord proj (buildAvailMapNtpc availArr) now d) = false := by
      rw [keepNtpc, hlat]
      simp
    rw [normalizeNtpc]
    simp [List.filter, hkeep]

/-- C10 witness: the third part of the theorem applied to a concrete
object with the non-numeric coordinate string "abc". -/
theorem nan_coords_dropped_witness :
    normalizeNtpc projSwap [Json.obj [("TW97X", Json.str "abc")]] [] 0 = [] :=
  nan_coords_dropped.2.2 projSwap [] 0 (Json.obj [("TW97X", Json.str "abc")]) (by
    simp [getProp, jsOr, objGet, fieldsGet, truthyOpt, Json.truthy, jsToLower, jsToUpper,
      parseFloatJS, parseFloatStr])

/-- Every request logged by the per-proxy loop is an attempt through that
proxy. -/
theorem proxyLoop_log_shape (env : Env) (url : String) (idx : Nat) :
    ∀ (fuel i : Nat), ∀ r ∈ (proxyLoop env url idx i fuel).2, ∃ j, r = Request.proxied idx url j := by
  intro fuel
  induction fuel with
  | zero =>
    intro i r hr
    simp [proxyLoop] at hr
  | succ f ih =>
    intro i r hr
    cases ho : env (Request.proxied idx url i) with
    | okJson v =>
      rw [proxyLoop, ho] at hr
      rcases List.mem_singleton.mp hr with rfl
      exact ⟨i, rfl⟩
    | okNonJson =>
      rw [proxyLoop, ho] at hr
      rcases List.mem_singleton.mp hr with rfl
      exact ⟨i, rfl⟩
    | httpErr =>
      rw [proxyLoop, ho] at hr
      rcases List.mem_cons.mp hr with rfl | hmem
      · exact ⟨i, rfl⟩
      · exact ih (i + 1) r hmem
    | netErr =>
      rw [proxyLoop, ho] at hr
      rcases List.mem_cons.mp hr with rfl | hmem
      · exact ⟨i, rfl⟩
      · exact ih (i + 1) r hmem

/-- If the first `k` attempts on a proxy are retryable errors (thrown
fetch or non-2xx) and attempt `k` returns a 2xx non-JSON body, the proxy
loop stops right there: no JSON, exactly `k + 1` attempts. -/
theorem proxyLoop_stop_on_nonjson (env : Env) (url : String) (idx : Nat) :
    ∀ (k fuel i : Nat), k < fuel →
      (∀ j, j < k → isRetryErr (env (Request.proxied idx url (i + j))) = true) →
      env (Request.proxied idx url (i + k)) = FetchOutcome.okNonJson →
      (proxyLoop env url idx i fuel).1 = none ∧
        (proxyLoop env url idx i fuel).2.length = k + 1 := by
  intro k
  induction k with
  | zero =>
    intro fuel i hfuel hbefore hfail
    obtain ⟨f, rfl⟩ := Nat.exists_eq_succ_of_ne_zero (by omega : fuel ≠ 0)
    rw [Nat.add_zero] at hfail
    rw [proxyLoop, hfail]
    exact ⟨rfl, rfl⟩
  | succ k ih =>
    intro fuel i hfuel hbefore hfail
    obtain ⟨f, rfl⟩ := Nat.exists_eq_succ_of_ne_zero (by omega : fuel ≠ 0)
    have h0 : isRetryErr (env (Request.proxied idx url i)) = true := by
      have := hbefore 0 (by omega)
      rwa [Nat.add_zero] at this
    have hsh : ∀ j, j < k → isRetryErr (env (Request.proxied idx url (i + 1 + j))) = true := by
      intro j hj
      have := hbefore (j + 1) (by omega)
      rwa [show i + (j + 1) = i + 1 + j by omega] at this
    have hfail2 : env (Request.proxied idx url (i + 1 + k)) = FetchOutcome.okNonJson := by
      rwa [show i + (k + 1) = i + 1 + k by omega] at hfail
    have hrec := ih f (i + 1) (by omega) hsh hfail2
    cases ho : env (Request.proxied idx url i) with
    | okJson v => rw [ho] at h0; simp [isRetryErr] at h0
    | okNonJson => rw [ho] at h0; simp [isRetryErr] at h0
    | httpErr =>
      rw [proxyLoop, ho]
      refine ⟨hrec.1, ?_⟩
      simp [List.length_cons, hrec.2]
    | netErr =>
      rw [proxyLoop, ho]
      refine ⟨hrec.1, ?_⟩
      simp [List.length_cons, hrec.2]

/-- If every attempt a proxy has fuel for is a retryable error, the loop
uses up all of its fuel (`retries + 1` attempts) on that proxy. -/
theorem proxyLoop_exhaust (env : Env) (url : String) (idx : Nat) :
    ∀ (fuel i : Nat),
      (∀ j, j < fuel → isRetryErr (env (Request.proxied idx url (i + j))) = true) →
      (proxyLoop env url idx i fuel).1 = none ∧
        (proxyLoop env url idx i fuel).2.length = fuel := by
  intro fuel
  induction fuel with
  | zero =>
    intro i hall
    simp [proxyLoop]
  | succ f ih =>
    intro i hall
    have h0 : isRetryErr (env (Request.proxied idx url i)) = true := by
      have := hall 0 (by omega)
      rwa [Nat.add_zero] at this
    have hsh : ∀ j, j < f → isRetryErr (env (Request.proxied idx url (i + 1 + j))) = true := by
      intro j hj
      have := hall (j + 1) (by omega)
      rwa [show i + (j + 1) = i + 1 + j by omega] at this
    have hrec := ih (i + 1) hsh
    cases ho : env (Request.proxied idx url i) with
    | okJson v => rw [ho] at h0; simp [isRetryErr] at h0
    | okNonJson => rw [ho] at h0; simp [isRetryErr] at h0
    | httpErr =>
      rw [proxyLoop, ho]
      exact ⟨hrec.1, by simp [List.length_cons, hrec.2]⟩
    | netErr =>
      rw [proxyLoop, ho]
      exact ⟨hrec.1, by simp [List.length_cons, hrec.2]⟩

/-- When the direct attempt yields no JSON, the number of first-proxy
attempts fetchWithRetry logs equals the length of the first proxy loop's
log. -/
theorem fetchWithRetryM_count_proxy0 (env : Env) (url : String) (retries : Nat)
    (hdir : jsonOf (env (Request.direct url)) = none) :
    (fetchWithRetryM env url retries).2.countP (isProxyAttempt 0) =
      (proxyLoop env url 0 0 (retries + 1)).2.length := by
  have hp0 : ∀ r ∈ (proxyLoop env url 0 0 (retries + 1)).2, isProxyAttempt 0 r = true := by
    intro r hr
    obtain ⟨j, rfl⟩ := proxyLoop_log_shape env url 0 (retries + 1) 0 r hr
    simp [isProxyAttempt]
  have hp1 : ∀ r ∈ (proxyLoop env url 1 0 (retries + 1)).2, ¬ isProxyAttempt 0 r = true := by
    intro r hr
    obtain ⟨j, rfl⟩ := proxyLoop_log_shape env url 1 (retries + 1) 0 r hr
    simp [isProxyAttempt]
  have hd : isProxyAttempt 0 (Request.direct url) = false := rfl
  rw [fetchWithRetryM, hdir]
  dsimp only
  cases hres : (proxyLoop env url 0 0 (retries + 1)).1 with
  | some v =>
    dsimp only
    rw [List.countP_cons, hd]
    simp [List.countP_eq_length.mpr hp0]
  | none =>
    dsimp only
    rw [List.countP_cons, List.countP_append, hd]
    simp [List.countP_eq_length.mpr hp0, List.countP_eq_zero.mpr hp1]

/-- C3 (amended): in fetchWithRetry's relay loop, a 2xx response whose
body fails to parse as JSON abandons the current relay immediately (after
error attempts on attempts 0..i-1, a non-JSON body at attempt i leaves
exactly i+1 attempts on that relay), while BOTH network/timeout failures
AND non-2xx responses consume the per-relay retry budget: a relay
answering only such errors is attempted retries+1 times before moving on. -/
theorem relay_retry_behavior (env : Env) (url : String) (retries : Nat)
    (hdir : jsonOf (env (Request.direct url)) = none) :
    (∀ i, i ≤ retries →
       (∀ j, j < i → isRetryErr (env (Request.proxied 0 url j)) = true) →
       env (Request.proxied 0 url i) = FetchOutcome.okNonJson →
       (fetchWithRetryM env url retries).2.countP (isProxyAttempt 0) = i + 1)
    ∧ ((∀ j, j ≤ retries → isRetryErr (env (Request.proxied 0 url j)) = true) →
       (fetchWithRetryM env url retries).2.countP (isProxyAttempt 0) = retries + 1) := by
  constructor
  · intro i hi hbefore hfail
    rw [fetchWithRetryM_count_proxy0 env url retries hdir]
    have h := proxyLoop_stop_on_nonjson env url 0 i (retries + 1) 0 (by omega)
      (fun j hj => by simpa using hbefore j hj)
      (by simpa using hfail)
    exact h.2
  · intro hall
    rw [fetchWithRetryM_count_proxy0 env url retries hdir]
    exact (proxyLoop_exhaust env url 0 (retries + 1) 0
      (fun j hj => by simpa using hall j (by omega))).2

/-- C3 counterexample: with every response a non-2xx status, the first
relay is attempted 3 times (the full retries+1 budget at the default
retries = 2) — not abandoned after a single non-2xx response as the claim
states. -/
theorem relay_nonretry_counterexample :
    ¬ ((fetchWithRetryM envAllHttp "u" 2).2.countP (isProxyAttempt 0) ≤ 1) := by
  have h3 : (fetchWithRetryM envAllHttp "u" 2).2.countP (isProxyAttempt 0) = 3 := rfl
  omega

/-- C3 witness: the amended theorem applied to an upstream whose first
relay answers non-2xx then non-JSON: exactly 2 attempts on that relay. -/
theorem relay_retry_behavior_witness :
    (fetchWithRetryM envRelayW "u" 2).2.countP (isProxyAttempt 0) = 2 :=
  (relay_retry_behavior envRelayW "u" 2 rfl).1 1 (by omega)
    (by
      intro j hj
      have hj0 : j = 0 := by omega
      subst hj0
      rfl)
    rfl

/-- A proxy loop with fuel left always logs its first attempt. -/
theorem proxyLoop_first_mem (env : Env) (url : String) (idx i fuel : Nat) :
    Request.proxied idx url i ∈ (proxyLoop env url idx i (fuel + 1)).2 := by
  cases ho : env (Request.proxied idx url i) with
  | okJson v => rw [proxyLoop, ho]; exact List.mem_singleton.mpr rfl
  | okNonJson => rw [proxyLoop, ho]; exact List.mem_singleton.mpr rfl
  | httpErr => rw [proxyLoop, ho]; exact List.mem_cons_self _ _
  | netErr => rw [proxyLoop, ho]; exact List.mem_cons_self _ _

/-- C5 counterexample: with every fetch failing at the network level, the
Source A normalizer issues no relay request at all (its log holds no
proxied request) and contributes the empty result — so its direct-fetch
failure is not followed by relay attempts, contrary to the claim. -/
theorem tpc_no_relay_counterexample :
    ¬ (1 ≤ (fetchTaipeiDataM projSwap envAllNetErr 0).2.countP isProxyReq)
    ∧ (fetchTaipeiDataM projSwap envAllNetErr 0).1 = [] := by
  constructor
  · have h : (fetchTaipeiDataM projSwap envAllNetErr 0).2.countP isProxyReq = 0 := rfl
    omega
  · rfl

/-- C5 (amended): only Variant B's page fetches are routed through
fetchWithRetry's direct-then-relay strategy (a failed direct attempt is
followed by a first-relay attempt); Variant A's description and
availability fetches are two unconditional plain direct fetches, so its
request log never contains a relay request. -/
theorem tpc_direct_ntpc_relay :
    (∀ (proj : ℚ → ℚ → ℚ × ℚ) (env : Env) (now : Nat),
        (fetchTaipeiDataM proj env now).2 =
          [Request.direct TPC_DESC_URL, Request.direct TPC_AVAIL_URL])
    ∧ (∀ (env : Env) (url : String) (retries : Nat),
        jsonOf (env (Request.direct url)) = none →
        Request.proxied 0 url 0 ∈ (fetchWithRetryM env url retries).2) := by
  constructor
  · intro proj env now
    rfl
  · intro env url retries hdir
    rw [fetchWithRetryM, hdir]
    dsimp only
    cases hres : (proxyLoop env url 0 0 (retries + 1)).1 with
    | some v =>
      dsimp only
      exact List.mem_cons_of_mem _ (proxyLoop_first_mem env url 0 0 retries)
    | none =>
      dsimp only
      exact List.mem_cons_of_mem _ (List.mem_append_left _ (proxyLoop_first_mem env url 0 0 retries))

/-- C5 witness: the amended theorem applied to the all-failing upstream —
Variant A logs exactly its two direct requests, while fetchWithRetry on a
failed direct fetch logs a first-relay attempt. -/
theorem tpc_direct_ntpc_relay_witness :
    (fetchTaipeiDataM projSwap envAllNetErr 0).2 =
      [Request.direct TPC_DESC_URL, Request.direct TPC_AVAIL_URL]
    ∧ Request.proxied 0 "u" 0 ∈ (fetchWithRetryM envAllNetErr "u" 2).2 :=
  ⟨tpc_direct_ntpc_relay.1 projSwap envAllNetErr 0,
   tpc_direct_ntpc_relay.2 envAllNetErr "u" 2 rfl⟩

/-- Paginator run lemma: starting at page `j` with `n` good pages ahead
(pages `j..j+n-1` return non-empty arrays) and a failed/empty page at
`j + n ≤ 15`, the loop returns the accumulator extended by exactly those
pages and issues `n + 1` page requests. -/
theorem ntpcLoop_run (env : Env) (base : String) (ts : Nat) (k : Nat)
    (elems : Nat → List Json) (hk : k ≤ 15)
    (hfail : ntpcStep env base ts k = none) :
    ∀ (n j : Nat) (acc : List Json), j + n = k →
      (∀ p, j ≤ p → p < k → ntpcStep env base ts p = some (elems p)) →
      ntpcLoop env base ts j acc =
        (acc ++ ((List.range' j n).map elems).flatten, n + 1) := by
  intro n
  induction n with
  | zero =>
    intro j acc hjn hgood
    have hj : j = k := by omega
    subst hj
    rw [ntpcLoop.eq_def, hfail]
    simp [List.range']
  | succ n ih =>
    intro j acc hjn hgood
    have hj : j < k := by omega
    rw [ntpcLoop.eq_def, hgood j le_rfl hj]
    have h15 : ¬ (j + 1 > 15) := by omega
    dsimp only
    rw [dif_neg h15]
    rw [ih (j + 1) (acc ++ elems j) (by omega) (fun p hp1 hp2 => hgood p (by omega) hp2)]
    rw [List.range'_succ]
    simp [List.append_assoc]

/-- C6: if pages 0..k-1 return non-empty arrays and page k (k ≤ 15) fails
to fetch or is not a non-empty array, the Paginator returns exactly the
concatenation of pages 0..k-1 (rather than an empty list or an error) and
issues exactly k+1 page requests — nothing past the failed page. -/
theorem paginator_partial_results (env : Env) (base : String) (ts : Nat) (k : Nat)
    (elems : Nat → List Json) (hk : k ≤ 15)
    (hgood : ∀ p, p < k → ntpcStep env base ts p = some (elems p))
    (hfail : ntpcStep env base ts k = none) :
    fetchAllNTPCData env base ts = (((List.range k).map elems).flatten, k + 1) := by
  have h := ntpcLoop_run env base ts k elems hk hfail k 0 [] (by omega)
    (fun p hp1 hp2 => hgood p hp2)
  rw [fetchAllNTPCData, h, List.range_eq_range']
  simp

/-- C6 witness: the theorem applied to the spec §8 end-to-end upstream —
page 0 holds one record, page 1 is empty: the paginator returns exactly
that record and issues exactly two page requests (never asking page 2). -/
theorem paginator_partial_results_witness :
    fetchAllNTPCData pageEnvW "b" 0 = ([Json.str "r1"], 2) := by
  have h := paginator_partial_results pageEnvW "b" 0 1 (fun _ => [Json.str "r1"])
    (by omega)
    (by
      intro p hp
      have hp0 : p = 0 := by omega
      subst hp0
      rfl)
    rfl
  simpa using h

/-- Paginator bound lemma: from any page `page ≤ 15` the loop issues at
most `16 - page` page requests (fuel-style induction on `15 - page`, made
explicit as the bound `k`). -/
theorem ntpcLoop_pages_le (env : Env) (base : String) (ts : Nat) :
    ∀ (k page : Nat) (acc : List Json), page ≤ 15 → 15 - page ≤ k →
      (ntpcLoop env base ts page acc).2 ≤ 16 - page := by
  intro k
  induction k with
  | zero =>
    intro page acc hp hk
    have hp15 : page = 15 := by omega
    subst hp15
    rw [ntpcLoop.eq_def]
    cases hstep : ntpcStep env base ts 15 with
    | none => simp
    | some elems =>
      dsimp only
      rw [dif_pos (by omega : 15 + 1 > 15)]
  | succ k ih =>
    intro page acc hp hk
    rw [ntpcLoop.eq_def]
    cases hstep : ntpcStep env base ts page with
    | none =>
      dsimp only
      omega
    | some elems =>
      dsimp only
      by_cases h15 : page + 1 > 15
      · rw [dif_pos h15]
        dsimp only
        omega
      · rw [dif_neg h15]
        have hrec := ih (page + 1) (acc ++ elems) (by omega) (by omega)
        dsimp only
        omega

/-- C7: for every upstream behavior, the Paginator issues at most 16 page
requests for a single base URL before terminating. -/
theorem paginator_at_most_16_pages (env : Env) (base : String) (ts : Nat) :
    (fetchAllNTPCData env base ts).2 ≤ 16 := by
  have h := ntpcLoop_pages_le env base ts 15 0 [] (by omega) (by omega)
  rw [fetchAllNTPCData]
  omega
